import Mathlib

/-!
Verification of the Kindlinho bot session core (src/main.py).

The bot keeps one process-wide mutable state: a mode flag `kindle_mode`,
three counters (`received`, `sent_ok`, `sent_fail`), an `errors` list and a
`last_activity` timestamp.  Handlers (`cmd_start`, `cmd_kindle`, `cmd_stop`,
`handle_document`) and a 30-second idle watchdog (`idle_monitor`) mutate it
under a lock.  We embed the state and every handler as pure functions of the
state plus the event data (sender identity, current time, filename, and the
outcomes of the two external transport calls), returning the new state and
the list of outward actions (replies, direct messages, mail attempts).
Times are modelled as natural numbers.
-/

namespace Kindlinho

/-- `IDLE_SLEEP_SECONDS = 2 * 60 * 60` from the source. -/
def IDLE_SLEEP_SECONDS : Nat := 2 * 60 * 60

/-- The mutable `state` dict of main.py. -/
structure BotState where
  kindle_mode : Bool
  received : Nat
  sent_ok : Nat
  sent_fail : Nat
  errors : List String
  last_activity : Nat
deriving DecidableEq, Repr

/-- Initial state at process start: mode off, zero counters, empty error
log, `last_activity = time.time()` at startup (a parameter `t0`). -/
def initState (t0 : Nat) : BotState :=
  { kindle_mode := false, received := 0, sent_ok := 0, sent_fail := 0,
    errors := [], last_activity := t0 }

/-- Outward effects a handler performs: `bot.reply_to` on the incoming
message, `bot.send_message` to an explicit user id, and an attempted
`send_email_to_kindle` with the given attachment filename. -/
inductive Action where
  | reply (text : String)
  | sendMessage (userId : Nat) (text : String)
  | sendMail (filename : String)
deriving DecidableEq, Repr

/-- Outcome of an external transport call (`bot.download_file` or
`send_email_to_kindle`): success, or an exception with message `msg`. -/
inductive Transfer where
  | ok
  | err (msg : String)
deriving DecidableEq, Repr

/-- `only_owner`: `message.from_user and message.from_user.id ==
ALLOWED_USER_ID`.  A message with no `from_user` is not the owner. -/
def only_owner (allowed : Nat) (fromId : Option Nat) : Bool :=
  fromId == some allowed

/-- `touch()`: set `last_activity` to the current time. -/
def touch (now : Nat) (s : BotState) : BotState :=
  { s with last_activity := now }

/-! ### Filename prettification (`prettify_title`) -/

/-- ASCII lowercasing, as Python's `str.lower()` acts on the ASCII range
(no character outside ASCII lowercases into `".epub"`, so this is an exact
model for the suffix tests below). -/
def lowerChar (c : Char) : Char :=
  if 'A' ≤ c ∧ c ≤ 'Z' then Char.ofNat (c.toNat + 32) else c

/-- Does `pat` start the list `l`? -/
def startsWithL : List Char → List Char → Bool
  | _, [] => true
  | [], _ :: _ => false
  | a :: as, b :: bs => a == b && startsWithL as bs

/-- Does `pat` end the list `l`? -/
def endsWithL (l pat : List Char) : Bool :=
  startsWithL l.reverse pat.reverse

/-- `filename.lower().endswith(".epub")` — also the test of the regex
`\.epub$` with IGNORECASE used by `prettify_title`. -/
def lowerEndsWithEpub (filename : String) : Bool :=
  endsWithL (filename.data.map lowerChar) ".epub".data

/-- The character map of `name.replace("_", " ").replace("-", " ")`. -/
def sepToSpace (c : Char) : Char :=
  if c = '_' ∨ c = '-' then ' ' else c

/-- ASCII whitespace as matched by the regex `\s` on these strings. -/
def isWs (c : Char) : Bool :=
  c = ' ' || c = '\t' || c = '\n' || c = '\r' || c = '\x0b' || c = '\x0c'

/-- `re.sub(r"\s+", " ", name)`: replace each maximal whitespace run by a
single space.  `prev` records whether the previous character was part of a
whitespace run already emitted. -/
def squeezeWs (prev : Bool) : List Char → List Char
  | [] => []
  | c :: cs =>
    if isWs c then
      if prev then squeezeWs true cs else ' ' :: squeezeWs true cs
    else c :: squeezeWs false cs

/-- `.strip()` after the squeeze: the only whitespace left is `' '`. -/
def stripSpaces (l : List Char) : List Char :=
  ((l.dropWhile (· = ' ')).reverse.dropWhile (· = ' ')).reverse

/-- `re.sub(r"\.epub$", "", filename, flags=re.IGNORECASE)`: drop the last
five characters when the lowercased name ends in ".epub". -/
def stripExt (filename : String) : List Char :=
  if lowerEndsWithEpub filename then filename.data.take (filename.data.length - 5)
  else filename.data

/-- `prettify_title` from main.py: drop a case-insensitive trailing
`.epub` (the regex `\.epub$` with IGNORECASE), map `_` and `-` to spaces,
collapse whitespace runs to single spaces, and strip. -/
def prettify_title (filename : String) : String :=
  String.mk (stripSpaces (squeezeWs false ((stripExt filename).map sepToSpace)))

/-! ### Message texts -/

def privateText : String := "🚫 Este bot é privado."

def startText : String :=
  "Olá Lu 🫶🏻\nSou o <b>BOT Kindlinho 🫶🏻</b>.\nEstou pronto para enviar livros para o teu Kindle 📚\n\nQuando quiseres começar, usa <b>/kindle</b>."

def kindleOnText : String :=
  "Modo Kindle ativo ✅\nAgora envia os teus EPUBs (podes mandar vários)."

def alreadyRestingText : String := "Eu já estava em descanso 🫶🏻"

def needKindleText : String :=
  "Antes disso usa <b>/kindle</b> para eu começar a enviar 📚"

def wrongFormatText : String :=
  "Esse ficheiro não é EPUB 😅\nEnvia um <b>.epub</b> e eu trato do resto."

/-- The counter block shared by both summaries. -/
def countersText (received sent_ok sent_fail : Nat) : String :=
  "📥 Recebidos: <b>" ++ toString received ++ "</b>\n✅ Enviados com sucesso: <b>"
    ++ toString sent_ok ++ "</b>\n❌ Erros: <b>" ++ toString sent_fail ++ "</b>"

/-- The `/stop` summary text built in `cmd_stop` from the snapshot. -/
def stopSummary (received sent_ok sent_fail : Nat) (errors : List String) : String :=
  let base := "Modo Kindle desativado 🫶🏻\n\n" ++ countersText received sent_ok sent_fail ++ "\n"
  let withErrs :=
    if errors.isEmpty then base
    else base ++ "\n⚠️ Erros encontrados:\n"
      ++ String.intercalate "\n" ((errors.take 10).map (fun e => "• " ++ e))
  withErrs ++ "\n\nAté já 📚✨"

/-- The idle-watchdog marker line, first in its notification. -/
def idleMarker : String := "😴 Sem atividade há 2h.\n"

/-- The idle notification after the marker: counters only. -/
def idleSummaryRest (received sent_ok sent_fail : Nat) : String :=
  "Modo Kindle desativado 🫶🏻\n\n" ++ countersText received sent_ok sent_fail

/-- The full idle-watchdog notification (`summary` in `idle_monitor`). -/
def idleSummary (received sent_ok sent_fail : Nat) : String :=
  idleMarker ++ idleSummaryRest received sent_ok sent_fail

/-! ### Handlers -/

/-- `cmd_start`: deny non-owners, else touch and send the greeting. -/
def cmd_start (allowed : Nat) (fromId : Option Nat) (now : Nat) (s : BotState) :
    BotState × List Action :=
  if ¬ only_owner allowed fromId then (s, [.reply privateText])
  else (touch now s, [.reply startText])

/-- `cmd_kindle`: deny non-owners, else touch, switch the mode on, zero
the counters and the error log, and confirm. -/
def cmd_kindle (allowed : Nat) (fromId : Option Nat) (now : Nat) (s : BotState) :
    BotState × List Action :=
  if ¬ only_owner allowed fromId then (s, [.reply privateText])
  else
    ({ s with last_activity := now, kindle_mode := true,
              received := 0, sent_ok := 0, sent_fail := 0, errors := [] },
     [.reply kindleOnText])

/-- `cmd_stop`: deny non-owners, else touch, remember whether the mode was
on, switch it off, snapshot the counters, reset them, and reply with either
the already-resting sentinel or the formatted summary. -/
def cmd_stop (allowed : Nat) (fromId : Option Nat) (now : Nat) (s : BotState) :
    BotState × List Action :=
  if ¬ only_owner allowed fromId then (s, [.reply privateText])
  else
    let was_on := s.kindle_mode
    let s' : BotState :=
      { s with last_activity := now, kindle_mode := false,
               received := 0, sent_ok := 0, sent_fail := 0, errors := [] }
    if ¬ was_on then (s', [.reply alreadyRestingText])
    else (s', [.reply (stopSummary s.received s.sent_ok s.sent_fail s.errors)])

/-- One iteration of the `idle_monitor` loop body after its sleep, at
current time `now`: if the mode is on and the idle time reached the
threshold, switch the mode off, build the summary from the counters,
reset them, and message the allowed user.  `last_activity` is not
modified.  (Python computes `time.time() - last_activity` as a float; with
`Nat` subtraction a clock running backwards also fails the `≥` test, since
the threshold is positive.) -/
def idle_tick (allowed : Nat) (now : Nat) (s : BotState) : BotState × List Action :=
  if s.kindle_mode ∧ IDLE_SLEEP_SECONDS ≤ now - s.last_activity then
    ({ s with kindle_mode := false,
              received := 0, sent_ok := 0, sent_fail := 0, errors := [] },
     [.sendMessage allowed (idleSummary s.received s.sent_ok s.sent_fail)])
  else (s, [])

/-- `filename = doc.file_name or "livro.epub"` (main.py:217): Python's
`or` substitutes the default both when the attribute is `None` and when it
is the falsy empty string. -/
def orDefaultName (fileName : Option String) : String :=
  match fileName with
  | none => "livro.epub"
  | some f => if f = "" then "livro.epub" else f

/-- `handle_document`: deny non-owners; touch; require kindle mode;
default a missing or empty filename to "livro.epub"; require a
case-insensitive `.epub` suffix; count the reception; then download and
mail, recording failures in `sent_fail`/`errors` and successes in
`sent_ok`. -/
def handle_document (allowed : Nat) (fromId : Option Nat) (now : Nat)
    (fileName : Option String) (download mail : Transfer) (s : BotState) :
    BotState × List Action :=
  if ¬ only_owner allowed fromId then (s, [.reply privateText])
  else
    let s := touch now s
    if ¬ s.kindle_mode then (s, [.reply needKindleText])
    else
      let filename := orDefaultName fileName
      if ¬ lowerEndsWithEpub filename then (s, [.reply wrongFormatText])
      else
        let s := { s with received := s.received + 1 }
        match download with
        | .err e =>
          ({ s with sent_fail := s.sent_fail + 1,
                    errors := s.errors ++ [filename ++ ": falha a descarregar (" ++ e ++ ")"] },
           [.reply ("❌ Erro ao descarregar: <b>" ++ filename ++ "</b>")])
        | .ok =>
          match mail with
          | .ok =>
            ({ s with sent_ok := s.sent_ok + 1 },
             [.sendMail filename,
              .reply ("✅ Livro <b>" ++ prettify_title filename ++ "</b> foi enviado para o Kindlinho 🫶🏻")])
          | .err e =>
            ({ s with sent_fail := s.sent_fail + 1,
                      errors := s.errors ++ [filename ++ ": falha ao enviar email (" ++ e ++ ")"] },
             [.sendMail filename,
              .reply ("❌ Erro ao enviar para Kindle: <b>" ++ filename ++ "</b>")])

/-! ### Whole-system transition relation -/

/-- An inbound event: one of the three commands, a document upload (with
the sender, the time, the optional filename and the outcomes of the two
transport calls), or a watchdog tick. -/
inductive Event where
  | start (fromId : Option Nat) (now : Nat)
  | kindle (fromId : Option Nat) (now : Nat)
  | stop (fromId : Option Nat) (now : Nat)
  | document (fromId : Option Nat) (now : Nat) (fileName : Option String)
      (download mail : Transfer)
  | tick (now : Nat)
deriving DecidableEq, Repr

/-- Dispatch an event to its handler. -/
def stepAct (allowed : Nat) (s : BotState) : Event → BotState × List Action
  | .start fromId now => cmd_start allowed fromId now s
  | .kindle fromId now => cmd_kindle allowed fromId now s
  | .stop fromId now => cmd_stop allowed fromId now s
  | .document fromId now fn dl ml => handle_document allowed fromId now fn dl ml s
  | .tick now => idle_tick allowed now s

/-- The state part of a step. -/
def stepState (allowed : Nat) (s : BotState) (e : Event) : BotState :=
  (stepAct allowed s e).1

/-- Run a list of events from the initial state. -/
def run (allowed t0 : Nat) (es : List Event) : BotState :=
  es.foldl (stepState allowed) (initState t0)

/-- A state the process can actually be in. -/
def Reachable (allowed : Nat) (s : BotState) : Prop :=
  ∃ t0 es, run allowed t0 es = s

/-! ### Derived notions used by the statements -/

/-- Does `pat` occur as a contiguous run inside `l`? -/
def hasSubL : List Char → List Char → Bool
  | [], pat => pat.isEmpty
  | a :: as, pat => startsWithL (a :: as) pat || hasSubL as pat

/-- Does `pat` occur inside the string `s`? -/
def containsText (s pat : String) : Bool :=
  hasSubL s.data pat.data

/-- All three counters are zero and the error log is empty. -/
def CountersZero (s : BotState) : Prop :=
  s.received = 0 ∧ s.sent_ok = 0 ∧ s.sent_fail = 0 ∧ s.errors = []

/-- The time an event happens at. -/
def eventTime : Event → Nat
  | .start _ now => now
  | .kindle _ now => now
  | .stop _ now => now
  | .document _ now _ _ _ => now
  | .tick now => now

/-- The transitions at which the code zeroes the counters and the error
log: an owner-issued `/kindle`, an owner-issued `/stop`, and a watchdog
tick whose idle test fires. -/
def ResetPoint (allowed : Nat) (s : BotState) : Event → Prop
  | .kindle fromId _ => only_owner allowed fromId = true
  | .stop fromId _ => only_owner allowed fromId = true
  | .tick now => s.kindle_mode ∧ IDLE_SLEEP_SECONDS ≤ now - s.last_activity
  | _ => False

instance (allowed : Nat) (s : BotState) (e : Event) :
    Decidable (ResetPoint allowed s e) := by
  cases e <;> simp only [ResetPoint] <;> infer_instance

/-- The session-level operations of the spec: `activate()` is the `/kindle`
handler invoked by the owner, `deactivate()` the `/stop` handler. -/
inductive SessionOp where
  | activate
  | deactivate
deriving DecidableEq, Repr

/-- The state part of a session operation issued by the owner at time
`now`. -/
def applyOp (allowed now : Nat) (s : BotState) : SessionOp → BotState
  | .activate => (cmd_kindle allowed (some allowed) now s).1
  | .deactivate => (cmd_stop allowed (some allowed) now s).1

/-- A concrete active state with nonzero counters and one logged error,
used to instantiate universally quantified theorems. -/
def sampleActiveState : BotState :=
  { kindle_mode := true, received := 2, sent_ok := 1, sent_fail := 1,
    errors := ["e"], last_activity := 0 }

/-- A concrete active state used to instantiate the session-operation
theorems. -/
def sampleBusyState : BotState :=
  { kindle_mode := true, received := 3, sent_ok := 1, sent_fail := 2,
    errors := ["e"], last_activity := 0 }

/-! ## Helper lemmas -/

theorem only_owner_self (allowed : Nat) : only_owner allowed (some allowed) = true := by
  simp [only_owner]

theorem orDefaultName_of_ne (f : String) (h : f ≠ "") :
    orDefaultName (some f) = f := by
  simp [orDefaultName, h]

theorem orDefaultName_of_epub (f : String) (h : lowerEndsWithEpub f = true) :
    orDefaultName (some f) = f := by
  refine orDefaultName_of_ne f (fun he => ?_)
  rw [he] at h
  exact absurd h (by decide)

theorem foldl_invariant (allowed : Nat) (P : BotState → Prop)
    (hstep : ∀ s e, P s → P (stepState allowed s e)) :
    ∀ (es : List Event) (s : BotState), P s → P (es.foldl (stepState allowed) s) := by
  intro es
  induction es with
  | nil => exact fun s h => h
  | cons e es ih => exact fun s h => ih _ (hstep s e h)

theorem reachable_invariant (allowed : Nat) (P : BotState → Prop)
    (hinit : ∀ t0, P (initState t0))
    (hstep : ∀ s e, P s → P (stepState allowed s e)) :
    ∀ s, Reachable allowed s → P s := by
  rintro s ⟨t0, es, rfl⟩
  exact foldl_invariant allowed P hstep es _ (hinit t0)

theorem inactiveZero_step (allowed : Nat) (s : BotState) (e : Event)
    (h : s.kindle_mode = false → CountersZero s) :
    (stepState allowed s e).kindle_mode = false → CountersZero (stepState allowed s e) := by
  cases e <;>
    simp only [stepState, stepAct, cmd_start, cmd_kindle, cmd_stop, handle_document,
      idle_tick, touch, CountersZero] at * <;>
    repeat' split <;> (try simp_all)

theorem countersZero_of_inactive_reachable (allowed : Nat) (s : BotState)
    (h : Reachable allowed s) (hoff : s.kindle_mode = false) : CountersZero s :=
  reachable_invariant allowed (fun s => s.kindle_mode = false → CountersZero s)
    (fun t0 => by simp [initState, CountersZero])
    (fun s e hh => inactiveZero_step allowed s e hh) s h hoff

theorem failLog_step (allowed : Nat) (s : BotState) (e : Event)
    (h : s.sent_fail = s.errors.length) :
    (stepState allowed s e).sent_fail = (stepState allowed s e).errors.length := by
  cases e <;>
    simp only [stepState, stepAct, cmd_start, cmd_kindle, cmd_stop, handle_document,
      idle_tick, touch] at * <;>
    repeat' split <;> (try simp_all)

theorem countersZero_applyOp (allowed now : Nat) (s : BotState) (op : SessionOp) :
    CountersZero (applyOp allowed now s op) := by
  cases op <;>
    simp only [applyOp, cmd_kindle, cmd_stop, only_owner_self, CountersZero] <;>
    repeat' split <;> (try simp_all)

theorem countersZero_foldOps (allowed now : Nat) :
    ∀ (ops : List SessionOp) (s : BotState), ops ≠ [] →
      CountersZero (ops.foldl (applyOp allowed now) s) := by
  intro ops
  induction ops with
  | nil => intro s h; exact absurd rfl h
  | cons o rest ih =>
    intro s _
    cases rest with
    | nil => exact countersZero_applyOp allowed now s o
    | cons o2 rest2 => exact ih (applyOp allowed now s o) (by simp)

theorem startsWithL_nil (l : List Char) : startsWithL l [] = true := by
  cases l <;> rfl

theorem startsWithL_append_self : ∀ (pat r : List Char), startsWithL (pat ++ r) pat = true := by
  intro pat
  induction pat with
  | nil => intro r; simpa using startsWithL_nil r
  | cons a as ih => intro r; simp [startsWithL, ih]

theorem hasSubL_of_startsWithL (l pat : List Char) (h : startsWithL l pat = true) :
    hasSubL l pat = true := by
  cases l with
  | nil =>
    cases pat with
    | nil => rfl
    | cons b bs => simp [startsWithL] at h
  | cons a as => simp [hasSubL, h]

theorem hasSubL_append_right : ∀ (l m pat : List Char), hasSubL m pat = true →
    hasSubL (l ++ m) pat = true := by
  intro l
  induction l with
  | nil => intro m pat h; simpa using h
  | cons a as ih =>
    intro m pat h
    simp only [List.cons_append, hasSubL, Bool.or_eq_true]
    exact Or.inr (ih m pat h)

theorem containsText_left (y z : String) : containsText (y ++ z) y = true := by
  unfold containsText
  rw [String.data_append]
  exact hasSubL_of_startsWithL _ _ (startsWithL_append_self _ _)

theorem containsText_mid (x y z : String) : containsText (x ++ y ++ z) y = true := by
  unfold containsText
  rw [String.data_append, String.data_append, List.append_assoc]
  exact hasSubL_append_right _ _ _
    (hasSubL_of_startsWithL _ _ (startsWithL_append_self _ _))

/-! ### Lemmas about the prettification pipeline -/


theorem mem_squeezeWs : ∀ (l : List Char) (b : Bool) (c : Char),
    c ∈ squeezeWs b l → c = ' ' ∨ c ∈ l := by
  intro l
  induction l with
  | nil => intro b c h; simp [squeezeWs] at h
  | cons a as ih =>
    intro b c h
    by_cases hw : isWs a = true
    · cases b with
      | true =>
        simp only [squeezeWs, hw, if_true, ite_true] at h
        rcases ih true c h with h1 | h1
        · exact Or.inl h1
        · exact Or.inr (List.mem_cons_of_mem a h1)
      | false =>
        simp [squeezeWs, hw] at h
        rcases h with h1 | h1
        · exact Or.inl h1
        · rcases ih true c h1 with h2 | h2
          · exact Or.inl h2
          · exact Or.inr (List.mem_cons_of_mem a h2)
    · simp [squeezeWs, hw] at h
      rcases h with h1 | h1
      · exact Or.inr (h1 ▸ List.mem_cons_self a as)
      · rcases ih false c h1 with h2 | h2
        · exact Or.inl h2
        · exact Or.inr (List.mem_cons_of_mem a h2)

theorem ws_mem_squeezeWs_eq_space : ∀ (l : List Char) (b : Bool) (c : Char),
    c ∈ squeezeWs b l → isWs c = true → c = ' ' := by
  intro l
  induction l with
  | nil => intro b c h; simp [squeezeWs] at h
  | cons a as ih =>
    intro b c h hc
    by_cases hw : isWs a = true
    · cases b with
      | true =>
        simp only [squeezeWs, hw, if_true, ite_true] at h
        exact ih true c h hc
      | false =>
        simp [squeezeWs, hw] at h
        rcases h with h1 | h1
        · exact h1
        · exact ih true c h1 hc
    · simp [squeezeWs, hw] at h
      rcases h with h1 | h1
      · exact absurd (h1 ▸ hc) (by simpa using hw)
      · exact ih false c h1 hc

theorem head_squeezeWs_true_not_ws : ∀ (l : List Char) (c : Char),
    (squeezeWs true l).head? = some c → isWs c = false := by
  intro l
  induction l with
  | nil => intro c h; simp [squeezeWs] at h
  | cons a as ih =>
    intro c h
    by_cases hw : isWs a = true
    · simp only [squeezeWs, hw, if_true, ite_true] at h
      exact ih c h
    · simp [squeezeWs, hw] at h
      rw [← h]
      simpa using hw

theorem chain_squeezeWs : ∀ (l : List Char) (b : Bool),
    List.Chain' (fun x y => ¬(isWs x = true ∧ isWs y = true)) (squeezeWs b l) := by
  intro l
  induction l with
  | nil => intro b; simp [squeezeWs]
  | cons a as ih =>
    intro b
    by_cases hw : isWs a = true
    · cases b with
      | true => simpa only [squeezeWs, hw, if_true, ite_true] using ih true
      | false =>
        simp only [squeezeWs, hw, if_true, ite_true, Bool.false_eq_true, ite_false]
        rw [List.chain'_cons']
        refine ⟨?_, ih true⟩
        intro y hy hcon
        have hny := head_squeezeWs_true_not_ws as y hy
        rw [hny] at hcon
        exact Bool.false_ne_true hcon.2
    · have hw2 : isWs a = false := by simpa using hw
      simp only [squeezeWs, hw2, Bool.false_eq_true, ite_false, if_false]
      rw [List.chain'_cons']
      refine ⟨?_, ih false⟩
      intro y hy hcon
      rw [hw2] at hcon
      exact Bool.false_ne_true hcon.1

theorem head_dropWhile_not (p : Char → Bool) : ∀ (l : List Char) (c : Char),
    (l.dropWhile p).head? = some c → p c = false := by
  intro l
  induction l with
  | nil => intro c h; simp [List.dropWhile] at h
  | cons a as ih =>
    intro c h
    by_cases hp : p a = true
    · rw [List.dropWhile_cons_of_pos hp] at h
      exact ih c h
    · have hp2 : p a = false := by simpa using hp
      rw [List.dropWhile_cons_of_neg (by simp [hp2])] at h
      simp only [List.head?_cons, Option.some.injEq] at h
      rw [← h]; exact hp2

theorem getLast_dropWhile_of_not (p : Char → Bool) : ∀ (l : List Char) (c : Char),
    l.getLast? = some c → p c = false → (l.dropWhile p).getLast? = some c := by
  intro l
  induction l with
  | nil => intro c h _; simp at h
  | cons a as ih =>
    intro c h hc
    cases as with
    | nil =>
      simp only [List.getLast?_singleton, Option.some.injEq] at h
      subst h
      rw [List.dropWhile_cons_of_neg (by simp [hc])]
      rfl
    | cons b bs =>
      rw [List.getLast?_cons_cons] at h
      by_cases hp : p a = true
      · rw [List.dropWhile_cons_of_pos hp]
        exact ih c h hc
      · rw [List.dropWhile_cons_of_neg (by simpa using hp)]
        rw [List.getLast?_cons_cons]
        exact h

theorem mem_stripSpaces (l : List Char) (c : Char) (h : c ∈ stripSpaces l) : c ∈ l := by
  unfold stripSpaces at h
  rw [List.mem_reverse] at h
  have h2 := (List.dropWhile_sublist (fun x => x = ' ')).mem h
  rw [List.mem_reverse] at h2
  exact (List.dropWhile_sublist (fun x => x = ' ')).mem h2

theorem head_stripSpaces_not (l : List Char) (c : Char)
    (h : (stripSpaces l).head? = some c) : decide (c = ' ') = false := by
  unfold stripSpaces at h
  rw [List.head?_reverse] at h
  rcases hm : l.dropWhile (· = ' ') with _ | ⟨d, ds⟩
  · rw [hm] at h; simp at h
  · have hd : (l.dropWhile (· = ' ')).head? = some d := by rw [hm]; rfl
    have hpd := head_dropWhile_not (· = ' ') l d hd
    have hgl : ((l.dropWhile (· = ' ')).reverse).getLast? = some d := by
      rw [List.getLast?_reverse, hd]
    have hdd := getLast_dropWhile_of_not (· = ' ')
      ((l.dropWhile (· = ' ')).reverse) d hgl hpd
    rw [h] at hdd
    simp only [Option.some.injEq] at hdd
    rw [hdd]
    exact hpd

theorem getLast_stripSpaces_not (l : List Char) (c : Char)
    (h : (stripSpaces l).getLast? = some c) : decide (c = ' ') = false := by
  unfold stripSpaces at h
  rw [List.getLast?_reverse] at h
  exact head_dropWhile_not (· = ' ') _ c h

theorem chain_stripSpaces {R : Char → Char → Prop}
    (hsym : ∀ a b, R a b → R b a) (l : List Char)
    (hl : List.Chain' R l) : List.Chain' R (stripSpaces l) := by
  unfold stripSpaces
  have h1 : List.Chain' R (l.dropWhile (· = ' ')) :=
    hl.suffix (List.dropWhile_suffix _)
  have h2 : List.Chain' R ((l.dropWhile (· = ' ')).reverse) := by
    rw [List.chain'_reverse]
    exact h1.imp (fun a b hab => hsym a b hab)
  have h3 : List.Chain' R (((l.dropWhile (· = ' ')).reverse).dropWhile (· = ' ')) :=
    h2.suffix (List.dropWhile_suffix _)
  rw [List.chain'_reverse]
  exact h3.imp (fun a b hab => hsym a b hab)

theorem map_eq_self {f : Char → Char} : ∀ (l : List Char), (∀ c ∈ l, f c = c) → l.map f = l := by
  intro l
  induction l with
  | nil => intro _; rfl
  | cons a as ih =>
    intro h
    simp only [List.map_cons]
    rw [h a (List.mem_cons_self a as), ih (fun c hc => h c (List.mem_cons_of_mem a hc))]

theorem map_sep_all_space : ∀ (l : List Char), (∀ c ∈ l, c = '_' ∨ c = '-' ∨ c = ' ') →
    l.map sepToSpace = List.replicate l.length ' ' := by
  intro l
  induction l with
  | nil => intro _; rfl
  | cons a as ih =>
    intro h
    simp only [List.map_cons, List.length_cons, List.replicate_succ]
    have ha : sepToSpace a = ' ' := by
      rcases h a (List.mem_cons_self a as) with h1 | h1 | h1 <;> simp [sepToSpace, h1]
    rw [ha, ih (fun c hc => h c (List.mem_cons_of_mem a hc))]

theorem endsWithL_append (x pat : List Char) : endsWithL (x ++ pat) pat = true := by
  unfold endsWithL
  rw [List.reverse_append]
  exact startsWithL_append_self pat.reverse x.reverse

theorem squeezeWs_true_replicate : ∀ (m : Nat) (rest : List Char),
    squeezeWs true (List.replicate m ' ' ++ rest) = squeezeWs true rest := by
  intro m
  induction m with
  | zero => intro rest; rfl
  | succ k ih =>
    intro rest
    rw [List.replicate_succ, List.cons_append]
    rw [show squeezeWs true (' ' :: (List.replicate k ' ' ++ rest))
        = squeezeWs true (List.replicate k ' ' ++ rest) by simp [squeezeWs, isWs]]
    exact ih rest

theorem sepToSpace_not_sep (x : Char) : sepToSpace x ≠ '_' ∧ sepToSpace x ≠ '-' := by
  unfold sepToSpace
  split
  · exact ⟨by decide, by decide⟩
  · rename_i h
    exact ⟨fun he => h (Or.inl he), fun he => h (Or.inr he)⟩



theorem prettify_no_seps (f : String) :
    '_' ∉ (prettify_title f).data ∧ '-' ∉ (prettify_title f).data := by
  constructor <;>
  · intro hmem
    have h3 := mem_stripSpaces _ _ hmem
    rcases mem_squeezeWs _ _ _ h3 with h4 | h4
    · exact absurd h4 (by decide)
    · rcases List.mem_map.mp h4 with ⟨x, _, hfx⟩
      first
        | exact (sepToSpace_not_sep x).1 hfx
        | exact (sepToSpace_not_sep x).2 hfx

theorem prettify_chain (f : String) :
    List.Chain' (fun x y => ¬(isWs x = true ∧ isWs y = true)) (prettify_title f).data :=
  chain_stripSpaces (fun _ _ h hc => h ⟨hc.2, hc.1⟩) _ (chain_squeezeWs _ false)

theorem prettify_head_not_ws (f : String) (c : Char)
    (h : (prettify_title f).data.head? = some c) : isWs c = false := by
  have h1 : decide (c = ' ') = false := head_stripSpaces_not _ c h
  have hc : c ∈ (prettify_title f).data := List.mem_of_mem_head? h
  have h2 := mem_stripSpaces _ _ hc
  by_cases hw : isWs c = true
  · have hsp := ws_mem_squeezeWs_eq_space _ false c h2 hw
    rw [hsp] at h1
    simp at h1
  · simpa using hw

theorem prettify_getLast_not_ws (f : String) (c : Char)
    (h : (prettify_title f).data.getLast? = some c) : isWs c = false := by
  have h1 : decide (c = ' ') = false := getLast_stripSpaces_not _ c h
  have hc : c ∈ (prettify_title f).data := List.mem_of_mem_getLast? h
  have h2 := mem_stripSpaces _ _ hc
  by_cases hw : isWs c = true
  · have hsp := ws_mem_squeezeWs_eq_space _ false c h2 hw
    rw [hsp] at h1
    simp at h1
  · simpa using hw

theorem prettify_sep_run (l : List Char) (hne : l ≠ [])
    (hsep : ∀ c ∈ l, c = '_' ∨ c = '-' ∨ c = ' ') :
    prettify_title (String.mk ('a' :: l ++ 'b' :: ".epub".data)) = "a b" := by
  have hepub : ".epub".data = ['.', 'e', 'p', 'u', 'b'] := rfl
  have hlower : (('a' :: l ++ 'b' :: ".epub".data).map lowerChar)
      = 'a' :: l ++ 'b' :: ".epub".data := by
    apply map_eq_self
    intro c hc
    rcases List.mem_cons.mp hc with rfl | hc2
    · decide
    rcases List.mem_append.mp hc2 with hc3 | hc3
    · rcases hsep c hc3 with rfl | rfl | rfl <;> decide
    · rcases List.mem_cons.mp hc3 with rfl | hc4
      · decide
      · rw [hepub] at hc4
        simp only [List.mem_cons, List.not_mem_nil, or_false] at hc4
        rcases hc4 with rfl | rfl | rfl | rfl | rfl <;> decide
  have hshape : 'a' :: l ++ 'b' :: ".epub".data = ('a' :: l ++ ['b']) ++ ".epub".data := by
    simp
  have hends : lowerEndsWithEpub (String.mk ('a' :: l ++ 'b' :: ".epub".data)) = true := by
    unfold lowerEndsWithEpub
    show endsWithL (('a' :: l ++ 'b' :: ".epub".data).map lowerChar) ".epub".data = true
    rw [hlower, hshape]
    exact endsWithL_append _ _
  have hdata : (String.mk ('a' :: l ++ 'b' :: ".epub".data)).data
      = 'a' :: l ++ 'b' :: ".epub".data := rfl
  unfold prettify_title stripExt
  rw [hends, if_pos rfl, hdata, hshape]
  have hlen : (('a' :: l ++ ['b']) ++ ".epub".data).length - 5 = ('a' :: l ++ ['b']).length := by
    rw [List.length_append, hepub]
    simp
  rw [hlen, List.take_left]
  have hmap : ('a' :: l ++ ['b']).map sepToSpace
      = 'a' :: (List.replicate l.length ' ' ++ ['b']) := by
    simp only [List.cons_append, List.map_cons, List.map_append, List.map_nil]
    rw [map_sep_all_space l hsep,
      show sepToSpace 'a' = 'a' from by decide,
      show sepToSpace 'b' = 'b' from by decide]
  rw [hmap]
  obtain ⟨k, hk⟩ : ∃ k, l.length = k + 1 := by
    cases l with
    | nil => exact absurd rfl hne
    | cons x xs => exact ⟨xs.length, rfl⟩
  rw [hk, List.replicate_succ, List.cons_append]
  rw [show squeezeWs false ('a' :: ' ' :: (List.replicate k ' ' ++ ['b']))
      = 'a' :: ' ' :: squeezeWs true (List.replicate k ' ' ++ ['b']) by
    simp [squeezeWs, show isWs 'a' = false from rfl, show isWs ' ' = true from rfl]]
  rw [squeezeWs_true_replicate k ['b']]
  rw [show squeezeWs true ['b'] = ['b'] from rfl]
  decide


/-! ## Claims -/

/-- C9: in every reachable state the failure counter equals the length of
the error log: every failure path increments `sent_fail` and appends one
entry to `errors` together, and every reset clears both in the same
step. -/
theorem C9_sent_fail_eq_errors_length (allowed : Nat) (s : BotState)
    (h : Reachable allowed s) : s.sent_fail = s.errors.length :=
  reachable_invariant allowed (fun s => s.sent_fail = s.errors.length)
    (fun _ => rfl) (fun s e hh => failLog_step allowed s e hh) s h

/-- Witness for C9 at a reachable state with one recorded failure. -/
theorem C9_sent_fail_eq_errors_length_witness :
    (run 1 0 [Event.kindle (some 1) 0,
              Event.document (some 1) 1 (some "a.epub") (Transfer.err "x") Transfer.ok]).sent_fail
      = (run 1 0 [Event.kindle (some 1) 0,
                  Event.document (some 1) 1 (some "a.epub") (Transfer.err "x") Transfer.ok]).errors.length :=
  C9_sent_fail_eq_errors_length 1 _ ⟨0, _, rfl⟩

/-- C3: invoking the stop command from the authorized user while the
session is inactive leaves the mode flag, all three counters and the
error log exactly as they were, and replies with the distinct
already-resting sentinel, which differs from the session summary an
active stop would have produced. -/
theorem C3_stop_inactive_no_mutation (allowed now : Nat) (s : BotState)
    (hreach : Reachable allowed s) (hoff : s.kindle_mode = false) :
    (cmd_stop allowed (some allowed) now s).1.kindle_mode = s.kindle_mode ∧
    (cmd_stop allowed (some allowed) now s).1.received = s.received ∧
    (cmd_stop allowed (some allowed) now s).1.sent_ok = s.sent_ok ∧
    (cmd_stop allowed (some allowed) now s).1.sent_fail = s.sent_fail ∧
    (cmd_stop allowed (some allowed) now s).1.errors = s.errors ∧
    (cmd_stop allowed (some allowed) now s).2 = [Action.reply alreadyRestingText] ∧
    alreadyRestingText ≠ stopSummary s.received s.sent_ok s.sent_fail s.errors := by
  obtain ⟨h1, h2, h3, h4⟩ := countersZero_of_inactive_reachable allowed s hreach hoff
  refine ⟨?_, ?_, ?_, ?_, ?_, ?_, ?_⟩ <;>
    simp [cmd_stop, only_owner_self, hoff, h1, h2, h3, h4]
  decide

/-- Witness for C3 at the (reachable, inactive) initial state. -/
theorem C3_stop_inactive_no_mutation_witness :
    (cmd_stop 1 (some 1) 5 (initState 0)).1.kindle_mode = (initState 0).kindle_mode ∧
    (cmd_stop 1 (some 1) 5 (initState 0)).1.received = (initState 0).received ∧
    (cmd_stop 1 (some 1) 5 (initState 0)).1.sent_ok = (initState 0).sent_ok ∧
    (cmd_stop 1 (some 1) 5 (initState 0)).1.sent_fail = (initState 0).sent_fail ∧
    (cmd_stop 1 (some 1) 5 (initState 0)).1.errors = (initState 0).errors ∧
    (cmd_stop 1 (some 1) 5 (initState 0)).2 = [Action.reply alreadyRestingText] ∧
    alreadyRestingText ≠ stopSummary (initState 0).received (initState 0).sent_ok
      (initState 0).sent_fail (initState 0).errors :=
  C3_stop_inactive_no_mutation 1 5 (initState 0) ⟨0, [], rfl⟩ rfl

/-- C4: immediately after every activate and after every deactivate — from
any state at all, hence after every step of every finite
activate/deactivate sequence — all three counters are zero and the error
log is empty; activating while already active keeps the mode on and still
performs the reset; and any nonempty operation sequence from the initial
state ends with zero counters. -/
theorem C4_counters_zero_after_ops (allowed now t0 : Nat) (s : BotState)
    (op : SessionOp) (ops : List SessionOp) (hne : ops ≠ []) :
    CountersZero (applyOp allowed now s op) ∧
    (s.kindle_mode = true →
      (applyOp allowed now s SessionOp.activate).kindle_mode = true ∧
      CountersZero (applyOp allowed now s SessionOp.activate)) ∧
    CountersZero (ops.foldl (applyOp allowed now) (initState t0)) := by
  refine ⟨countersZero_applyOp allowed now s op, fun _ => ⟨?_, countersZero_applyOp allowed now s .activate⟩,
    countersZero_foldOps allowed now ops (initState t0) hne⟩
  simp [applyOp, cmd_kindle, only_owner_self]

/-- Witness for C4 at a concrete active state with nonzero counters and a
two-operation sequence. -/
theorem C4_counters_zero_after_ops_witness :
    CountersZero (applyOp 1 5 sampleBusyState SessionOp.activate) ∧
    ((applyOp 1 5 sampleBusyState SessionOp.activate).kindle_mode = true ∧
     CountersZero (applyOp 1 5 sampleBusyState SessionOp.activate)) ∧
    CountersZero ([SessionOp.activate, SessionOp.deactivate].foldl (applyOp 1 5) (initState 0)) :=
  have h := C4_counters_zero_after_ops 1 5 0 sampleBusyState
    SessionOp.activate [SessionOp.activate, SessionOp.deactivate] (by decide)
  ⟨h.1, h.2.1 rfl, h.2.2⟩

/-- C1 counterexample: from the reachable state reached by an activation
followed by one successfully delivered upload (`received = 1`, mode on), a
second owner `/kindle` — which is neither the stop command nor a watchdog
deactivation — zeroes `received` while `kindle_mode` stays true, so the
counters are reset at a point other than the two session-ending points and
while `active` is true. -/
theorem C1_reset_while_active_cex :
    (run 1 0 [Event.kindle (some 1) 0,
              Event.document (some 1) 1 (some "a.epub") Transfer.ok Transfer.ok]).kindle_mode
        = true ∧
    (run 1 0 [Event.kindle (some 1) 0,
              Event.document (some 1) 1 (some "a.epub") Transfer.ok Transfer.ok]).received = 1 ∧
    (stepState 1 (run 1 0 [Event.kindle (some 1) 0,
              Event.document (some 1) 1 (some "a.epub") Transfer.ok Transfer.ok])
        (Event.kindle (some 1) 2)).kindle_mode = true ∧
    (stepState 1 (run 1 0 [Event.kindle (some 1) 0,
              Event.document (some 1) 1 (some "a.epub") Transfer.ok Transfer.ok])
        (Event.kindle (some 1) 2)).received = 0 :=
  ⟨rfl, rfl, rfl, rfl⟩

/-- C1 (amended): counters and the error log are zeroed at exactly three
kinds of transition — an owner `/kindle` (activation, including
re-activation while active), an owner `/stop`, and a watchdog tick whose
idle test fires; at every other transition no counter decreases and the
error log is only ever appended to. -/
theorem C1_amended_resets_exactly (allowed : Nat) (s : BotState) (e : Event) :
    (ResetPoint allowed s e → CountersZero (stepState allowed s e)) ∧
    (¬ ResetPoint allowed s e →
      s.received ≤ (stepState allowed s e).received ∧
      s.sent_ok ≤ (stepState allowed s e).sent_ok ∧
      s.sent_fail ≤ (stepState allowed s e).sent_fail ∧
      ∃ t, (stepState allowed s e).errors = s.errors ++ t) := by
  constructor
  · intro hr
    cases e <;> simp only [ResetPoint] at hr <;>
      simp_all [stepState, stepAct, cmd_kindle, cmd_stop, idle_tick, CountersZero] <;>
      repeat' split <;> simp_all
  · intro hr
    cases e <;> simp only [ResetPoint] at hr <;>
      simp only [stepState, stepAct, cmd_start, cmd_kindle, cmd_stop, handle_document,
        idle_tick, touch] <;>
      repeat' split <;> (try simp_all)

/-- Witness for C1 (amended): an owner activation is a reset point and
zeroes the counters; a greeting command is not and leaves them alone. -/
theorem C1_amended_resets_exactly_witness :
    CountersZero (stepState 1 (initState 0) (Event.kindle (some 1) 1)) ∧
    ((initState 0).received ≤ (stepState 1 (initState 0) (Event.start (some 1) 1)).received ∧
     (initState 0).sent_ok ≤ (stepState 1 (initState 0) (Event.start (some 1) 1)).sent_ok ∧
     (initState 0).sent_fail ≤ (stepState 1 (initState 0) (Event.start (some 1) 1)).sent_fail ∧
     ∃ t, (stepState 1 (initState 0) (Event.start (some 1) 1)).errors = (initState 0).errors ++ t) :=
  ⟨(C1_amended_resets_exactly 1 (initState 0) (Event.kindle (some 1) 1)).1
      (by simp [ResetPoint, only_owner]),
   (C1_amended_resets_exactly 1 (initState 0) (Event.start (some 1) 1)).2
      (by simp [ResetPoint])⟩

/-- C2 counterexample: in a reachable state with mode on, one failed
delivery in the error log and the idle threshold reached, the watchdog
tick does deactivate and notify — but the notification does not contain
the error-log entry present immediately before the reset (not even the
filename occurs in it), contradicting the claim that the first 10
error-log entries are part of the summary. -/
theorem C2_idle_notification_omits_errors_cex :
    (run 1 0 [Event.kindle (some 1) 0,
              Event.document (some 1) 0 (some "a.epub") Transfer.ok (Transfer.err "x")]).kindle_mode
        = true ∧
    (run 1 0 [Event.kindle (some 1) 0,
              Event.document (some 1) 0 (some "a.epub") Transfer.ok (Transfer.err "x")]).errors
        = ["a.epub: falha ao enviar email (x)"] ∧
    IDLE_SLEEP_SECONDS ≤ 7200 -
      (run 1 0 [Event.kindle (some 1) 0,
                Event.document (some 1) 0 (some "a.epub") Transfer.ok (Transfer.err "x")]).last_activity ∧
    (stepAct 1 (run 1 0 [Event.kindle (some 1) 0,
                Event.document (some 1) 0 (some "a.epub") Transfer.ok (Transfer.err "x")])
        (Event.tick 7200)).2 = [Action.sendMessage 1 (idleSummary 1 0 1)] ∧
    containsText (idleSummary 1 0 1) "a.epub" = false := by
  refine ⟨rfl, rfl, by decide, rfl, by decide⟩

/-- C2 (amended): whenever the mode is on and the idle time reaches the
threshold, the next watchdog tick deactivates the session, zeroes the
counters and error log, leaves `last_activity` alone, and sends the
authorized user one notification consisting of the auto-deactivation
marker followed by the summary built from the exact counter values held
immediately before the reset (counts only — error-log entries are not
included); any further tick with no intervening activation changes
nothing and sends nothing. -/
theorem C2_idle_tick_deactivates_once (allowed now : Nat) (s : BotState)
    (hon : s.kindle_mode = true)
    (hidle : IDLE_SLEEP_SECONDS ≤ now - s.last_activity) :
    stepAct allowed s (Event.tick now) =
      ({ s with kindle_mode := false, received := 0, sent_ok := 0,
                sent_fail := 0, errors := [] },
       [Action.sendMessage allowed
          (idleMarker ++ idleSummaryRest s.received s.sent_ok s.sent_fail)]) ∧
    (∀ now2, stepAct allowed (stepState allowed s (Event.tick now)) (Event.tick now2)
       = (stepState allowed s (Event.tick now), [])) := by
  constructor
  · simp [stepAct, idle_tick, hon, hidle, idleSummary]
  · intro now2
    simp [stepAct, stepState, idle_tick, hon, hidle]

/-- Witness for C2 (amended) at a concrete idle state with nonzero
counters, followed by a second tick. -/
theorem C2_idle_tick_deactivates_once_witness :
    stepAct 1 sampleActiveState (Event.tick 7200) =
      ({ sampleActiveState with kindle_mode := false, received := 0, sent_ok := 0,
                                sent_fail := 0, errors := [] },
       [Action.sendMessage 1 (idleMarker ++ idleSummaryRest 2 1 1)]) ∧
    stepAct 1 (stepState 1 sampleActiveState (Event.tick 7200)) (Event.tick 9000) =
      (stepState 1 sampleActiveState (Event.tick 7200), []) :=
  have h := C2_idle_tick_deactivates_once 1 7200 sampleActiveState rfl (by decide)
  ⟨h.1, h.2 9000⟩

/-- C6: an authorized upload in an active session with a valid filename
whose download fails increments the failure counter by one, appends to the
error log exactly one entry — the string built from the filename and the
underlying error, which therefore contains both — leaves the delivered
counter unchanged, replies with the fixed download-failure message naming
the file, and attempts no mail delivery. -/
theorem C6_download_failure (allowed now : Nat) (s : BotState) (fname e : String)
    (ml : Transfer) (hon : s.kindle_mode = true)
    (hext : lowerEndsWithEpub fname = true) :
    (handle_document allowed (some allowed) now (some fname) (Transfer.err e) ml s).1.sent_fail
        = s.sent_fail + 1 ∧
    (handle_document allowed (some allowed) now (some fname) (Transfer.err e) ml s).1.errors
        = s.errors ++ [fname ++ ": falha a descarregar (" ++ e ++ ")"] ∧
    (handle_document allowed (some allowed) now (some fname) (Transfer.err e) ml s).1.sent_ok
        = s.sent_ok ∧
    (handle_document allowed (some allowed) now (some fname) (Transfer.err e) ml s).2
        = [Action.reply ("❌ Erro ao descarregar: <b>" ++ fname ++ "</b>")] ∧
    (∀ g, Action.sendMail g ∉
        (handle_document allowed (some allowed) now (some fname) (Transfer.err e) ml s).2) ∧
    containsText (fname ++ ": falha a descarregar (" ++ e ++ ")") fname = true ∧
    containsText (fname ++ ": falha a descarregar (" ++ e ++ ")") e = true := by
  have hn : orDefaultName (some fname) = fname := orDefaultName_of_epub fname hext
  refine ⟨?_, ?_, ?_, ?_, ?_, ?_, ?_⟩
  · simp [handle_document, only_owner_self, hon, hext, touch, hn]
  · simp [handle_document, only_owner_self, hon, hext, touch, hn]
  · simp [handle_document, only_owner_self, hon, hext, touch, hn]
  · simp [handle_document, only_owner_self, hon, hext, touch, hn]
  · simp [handle_document, only_owner_self, hon, hext, touch, hn]
  · rw [String.append_assoc, String.append_assoc]
    exact containsText_left fname _
  · exact containsText_mid (fname ++ ": falha a descarregar (") e ")"

/-- Witness for C6: a concrete failing download of "a.epub". -/
theorem C6_download_failure_witness :
    (handle_document 1 (some 1) 3 (some "a.epub") (Transfer.err "timeout") Transfer.ok
        sampleActiveState).1.sent_fail = sampleActiveState.sent_fail + 1 ∧
    (handle_document 1 (some 1) 3 (some "a.epub") (Transfer.err "timeout") Transfer.ok
        sampleActiveState).1.errors
      = sampleActiveState.errors ++ ["a.epub" ++ ": falha a descarregar (" ++ "timeout" ++ ")"] ∧
    (handle_document 1 (some 1) 3 (some "a.epub") (Transfer.err "timeout") Transfer.ok
        sampleActiveState).1.sent_ok = sampleActiveState.sent_ok ∧
    (handle_document 1 (some 1) 3 (some "a.epub") (Transfer.err "timeout") Transfer.ok
        sampleActiveState).2
      = [Action.reply ("❌ Erro ao descarregar: <b>" ++ "a.epub" ++ "</b>")] ∧
    (∀ g, Action.sendMail g ∉
        (handle_document 1 (some 1) 3 (some "a.epub") (Transfer.err "timeout") Transfer.ok
          sampleActiveState).2) ∧
    containsText ("a.epub" ++ ": falha a descarregar (" ++ "timeout" ++ ")") "a.epub" = true ∧
    containsText ("a.epub" ++ ": falha a descarregar (" ++ "timeout" ++ ")") "timeout" = true :=
  C6_download_failure 1 3 sampleActiveState "a.epub" "timeout" Transfer.ok rfl (by decide)

/-- C7 counterexample: in the active state reached by one activation, an
upload whose document carries the empty filename — which does not end in
".epub" — is nevertheless not rejected: `doc.file_name or "livro.epub"`
replaces the falsy empty string by the default, the format check passes,
`received` is incremented and the reply is the success message, not the
wrong-format one. -/
theorem C7_empty_filename_cex :
    lowerEndsWithEpub "" = false ∧
    (run 1 0 [Event.kindle (some 1) 0]).kindle_mode = true ∧
    (handle_document 1 (some 1) 1 (some "") Transfer.ok Transfer.ok
        (run 1 0 [Event.kindle (some 1) 0])).2 ≠ [Action.reply wrongFormatText] ∧
    (handle_document 1 (some 1) 1 (some "") Transfer.ok Transfer.ok
        (run 1 0 [Event.kindle (some 1) 0])).1.received
      = (run 1 0 [Event.kindle (some 1) 0]).received + 1 := by
  refine ⟨by decide, rfl, by decide, rfl⟩

/-- C7 (amended): an authorized upload in an active session whose filename
is nonempty and lacks the (case-insensitive) ".epub" suffix gets the fixed
wrong-format reply and leaves `received`, `sent_ok`, `sent_fail` and the
error log exactly as they were, whatever the transport outcomes would have
been.  (An empty filename, like a missing one, is first replaced by the
default "livro.epub" and therefore passes the format check.) -/
theorem C7_wrong_format_frame (allowed now : Nat) (s : BotState) (fname : String)
    (dl ml : Transfer) (hon : s.kindle_mode = true) (hne : fname ≠ "")
    (hext : lowerEndsWithEpub fname = false) :
    (handle_document allowed (some allowed) now (some fname) dl ml s).1.received = s.received ∧
    (handle_document allowed (some allowed) now (some fname) dl ml s).1.sent_ok = s.sent_ok ∧
    (handle_document allowed (some allowed) now (some fname) dl ml s).1.sent_fail = s.sent_fail ∧
    (handle_document allowed (some allowed) now (some fname) dl ml s).1.errors = s.errors ∧
    (handle_document allowed (some allowed) now (some fname) dl ml s).2
        = [Action.reply wrongFormatText] := by
  have hn : orDefaultName (some fname) = fname := orDefaultName_of_ne fname hne
  refine ⟨?_, ?_, ?_, ?_, ?_⟩ <;>
    simp [handle_document, only_owner_self, hon, hext, touch, hn]

/-- Witness for C7: uploading "a.txt" in an active session. -/
theorem C7_wrong_format_frame_witness :
    (handle_document 1 (some 1) 3 (some "a.txt") Transfer.ok Transfer.ok
        sampleActiveState).1.received = sampleActiveState.received ∧
    (handle_document 1 (some 1) 3 (some "a.txt") Transfer.ok Transfer.ok
        sampleActiveState).1.sent_ok = sampleActiveState.sent_ok ∧
    (handle_document 1 (some 1) 3 (some "a.txt") Transfer.ok Transfer.ok
        sampleActiveState).1.sent_fail = sampleActiveState.sent_fail ∧
    (handle_document 1 (some 1) 3 (some "a.txt") Transfer.ok Transfer.ok
        sampleActiveState).1.errors = sampleActiveState.errors ∧
    (handle_document 1 (some 1) 3 (some "a.txt") Transfer.ok Transfer.ok
        sampleActiveState).2 = [Action.reply wrongFormatText] :=
  C7_wrong_format_frame 1 3 sampleActiveState "a.txt" Transfer.ok Transfer.ok rfl
    (by decide) (by decide)

/-- C10: an authorized upload with no filename, in an active session, uses
the default name "livro.epub": it is never rejected by the format check
(for any transport outcomes the wrong-format reply is absent and
`received` is incremented), and when both transports succeed the mail is
attempted with attachment name "livro.epub" and the success reply titles
the book with the prettified default, "livro". -/
theorem C10_default_filename (allowed now : Nat) (s : BotState) (dl ml : Transfer)
    (hon : s.kindle_mode = true) :
    Action.reply wrongFormatText ∉
        (handle_document allowed (some allowed) now none dl ml s).2 ∧
    (handle_document allowed (some allowed) now none dl ml s).1.received = s.received + 1 ∧
    (dl = Transfer.ok → ml = Transfer.ok →
      (handle_document allowed (some allowed) now none dl ml s).2 =
        [Action.sendMail "livro.epub",
         Action.reply ("✅ Livro <b>" ++ prettify_title "livro.epub"
           ++ "</b> foi enviado para o Kindlinho 🫶🏻")]) ∧
    prettify_title "livro.epub" = "livro" := by
  have hv : lowerEndsWithEpub "livro.epub" = true := by decide
  refine ⟨?_, ?_, ?_, by decide⟩
  · cases dl <;> cases ml <;>
      simp [handle_document, orDefaultName, only_owner_self, hon, touch, hv] <;> decide
  · cases dl <;> cases ml <;>
      simp [handle_document, orDefaultName, only_owner_self, hon, touch, hv]
  · rintro rfl rfl
    simp [handle_document, orDefaultName, only_owner_self, hon, touch, hv]

/-- Witness for C10: a filename-less upload that fully succeeds. -/
theorem C10_default_filename_witness :
    Action.reply wrongFormatText ∉
        (handle_document 1 (some 1) 3 none Transfer.ok Transfer.ok sampleActiveState).2 ∧
    (handle_document 1 (some 1) 3 none Transfer.ok Transfer.ok
        sampleActiveState).1.received = sampleActiveState.received + 1 ∧
    (handle_document 1 (some 1) 3 none Transfer.ok Transfer.ok sampleActiveState).2 =
        [Action.sendMail "livro.epub",
         Action.reply ("✅ Livro <b>" ++ prettify_title "livro.epub"
           ++ "</b> foi enviado para o Kindlinho 🫶🏻")] ∧
    prettify_title "livro.epub" = "livro" :=
  have h := C10_default_filename 1 3 sampleActiveState Transfer.ok Transfer.ok rfl
  ⟨h.1, h.2.1, h.2.2.1 rfl rfl, h.2.2.2⟩

/-- C8: a watchdog tick — whether or not it deactivates — never changes
`last_activity`; along any transition whose event time is at least the
current value (current time non-decreasing), `last_activity` never
decreases; and whenever a transition changes it at all, the event is an
owner-authorized command or upload and the new value is that event's
current time. -/
theorem C8_lastActivity_monotone (allowed : Nat) (s : BotState) :
    (∀ now, (stepState allowed s (Event.tick now)).last_activity = s.last_activity) ∧
    (∀ e, s.last_activity ≤ eventTime e →
      s.last_activity ≤ (stepState allowed s e).last_activity) ∧
    (∀ e, (stepState allowed s e).last_activity ≠ s.last_activity →
      (stepState allowed s e).last_activity = eventTime e ∧
      ∃ f now, (e = Event.start f now ∨ e = Event.kindle f now ∨ e = Event.stop f now ∨
          ∃ fn dl ml, e = Event.document f now fn dl ml) ∧ only_owner allowed f = true) := by
  refine ⟨?_, ?_, ?_⟩
  · intro now
    simp only [stepState, stepAct, idle_tick]
    split <;> rfl
  · intro e he
    cases e <;>
      simp only [stepState, stepAct, cmd_start, cmd_kindle, cmd_stop, handle_document,
        idle_tick, touch, eventTime] at * <;>
      repeat' split <;> (try simp_all)
  · intro e hne
    cases e with
    | start f now =>
      by_cases h : only_owner allowed f = true
      · exact ⟨by simp [stepState, stepAct, cmd_start, touch, h, eventTime],
          f, now, Or.inl rfl, h⟩
      · exact absurd (by simp [stepState, stepAct, cmd_start, h]) hne
    | kindle f now =>
      by_cases h : only_owner allowed f = true
      · exact ⟨by simp [stepState, stepAct, cmd_kindle, h, eventTime],
          f, now, Or.inr (Or.inl rfl), h⟩
      · exact absurd (by simp [stepState, stepAct, cmd_kindle, h]) hne
    | stop f now =>
      by_cases h : only_owner allowed f = true
      · refine ⟨?_, f, now, Or.inr (Or.inr (Or.inl rfl)), h⟩
        simp only [stepState, stepAct, cmd_stop, h, eventTime]
        split
        · simp_all
        · split <;> rfl
      · exact absurd (by simp [stepState, stepAct, cmd_stop, h]) hne
    | document f now fn dl ml =>
      by_cases h : only_owner allowed f = true
      · refine ⟨?_, f, now, Or.inr (Or.inr (Or.inr ⟨fn, dl, ml, rfl⟩)), h⟩
        simp only [stepState, stepAct, handle_document, touch, h, eventTime]
        repeat' split
        all_goals first | rfl | simp_all
      · exact absurd (by simp [stepState, stepAct, handle_document, h]) hne
    | tick now =>
      refine absurd ?_ hne
      simp only [stepState, stepAct, idle_tick]
      split <;> rfl

/-- Witness for C8: the tick leaves the timestamp alone, and an owner
greeting moves it forward, to the command's time. -/
theorem C8_lastActivity_monotone_witness :
    (stepState 1 sampleActiveState (Event.tick 7200)).last_activity
        = sampleActiveState.last_activity ∧
    sampleActiveState.last_activity ≤
        (stepState 1 sampleActiveState (Event.start (some 1) 5)).last_activity ∧
    ((stepState 1 sampleActiveState (Event.start (some 1) 5)).last_activity
        = eventTime (Event.start (some 1) 5) ∧
      ∃ f now, (Event.start (some 1) 5 = Event.start f now ∨
          Event.start (some 1) 5 = Event.kindle f now ∨
          Event.start (some 1) 5 = Event.stop f now ∨
          ∃ fn dl ml, Event.start (some 1) 5 = Event.document f now fn dl ml) ∧
        only_owner 1 f = true) :=
  have h := C8_lastActivity_monotone 1 sampleActiveState
  ⟨h.1 7200, h.2.1 (Event.start (some 1) 5) (by decide),
    h.2.2 (Event.start (some 1) 5) (by decide)⟩


/-- C5: `prettify_title` strips the known extension, replaces every
underscore and hyphen with a space, collapses consecutive whitespace to
one space, and trims: the two reference examples hold, any nonempty run
of consecutive separators between words yields exactly one space, and for
every filename the result contains no underscore or hyphen, never has two
adjacent whitespace characters, and neither starts nor ends with
whitespace. -/
theorem C5_prettify_title_correct (f : String) (l : List Char) (hne : l ≠ [])
    (hsep : ∀ c ∈ l, c = '_' ∨ c = '-' ∨ c = ' ') :
    prettify_title "Some_Book-Title.epub" = "Some Book Title" ∧
    prettify_title "already clean.epub" = "already clean" ∧
    prettify_title (String.mk ('a' :: l ++ 'b' :: ".epub".data)) = "a b" ∧
    ('_' ∉ (prettify_title f).data ∧ '-' ∉ (prettify_title f).data) ∧
    List.Chain' (fun x y => ¬(isWs x = true ∧ isWs y = true)) (prettify_title f).data ∧
    (∀ c, (prettify_title f).data.head? = some c → isWs c = false) ∧
    (∀ c, (prettify_title f).data.getLast? = some c → isWs c = false) :=
  ⟨by decide, by decide, prettify_sep_run l hne hsep, prettify_no_seps f,
   prettify_chain f, fun c hc => prettify_head_not_ws f c hc,
   fun c hc => prettify_getLast_not_ws f c hc⟩

/-- Witness for C5 at the filename "x_y.epub" and the separator run
consisting of one underscore and one hyphen. -/
theorem C5_prettify_title_correct_witness :
    prettify_title "Some_Book-Title.epub" = "Some Book Title" ∧
    prettify_title (String.mk ('a' :: ['_', '-'] ++ 'b' :: ".epub".data)) = "a b" ∧
    isWs 'x' = false :=
  have h := C5_prettify_title_correct "x_y.epub" ['_', '-'] (by decide) (by decide)
  ⟨h.1, h.2.2.1, h.2.2.2.2.2.1 'x' (by decide)⟩

end Kindlinho
